import Mathlib

/-!
Verification of the dynamic-pricing decision engine of the AgroTech ML service.

The definitions below are a shallow embedding, over `ℚ`, of the pricing-v1
handler `pricing_optimize_v1` (ml/service/main.py, lines 341-481), of the
model-selection helper `predict_with_models`
(ml/modules/dynamic_pricing/serve_models.py), and of the simulated training
environment `PricingEnv.step` (ml/modules/dynamic_pricing/train_dqn.py).
External collaborators (product catalog, demand forecast, competitor feed,
environment variables, the opaque learned models, and the process string hash
used for A/B bucketing) are modelled as explicit inputs in a context record,
since the handler only consumes their returned values.  Places where the
Python code could raise (`candidates[0]`, `max(candidates)`) are embedded in
`Except`, so that "the endpoint never errors" is a provable statement.
-/

namespace AgroPricing

/-- Python `str.upper` on a single ASCII character (faithful for the ASCII
grade strings used by the handler), written structurally so it reduces. -/
def upperChar (c : Char) : Char :=
  if c.isLower then Char.ofNat (c.toNat - 32) else c

/-- Python `str.upper`, as a structural map over the characters. -/
def upperStr (s : String) : String :=
  String.mk (s.data.map upperChar)

/-- `grade_markup_map.get(grade, 1.5)` — main.py lines 362-363.
Note the dictionary default for an unknown grade is `1.5`, not the B entry. -/
def gradeMarkup (g : String) : ℚ :=
  if g = "A" then 2.0 else if g = "B" then 1.6 else if g = "C" then 1.3 else 1.5

/-- `quality_factor_map.get(grade, 0.85)` — main.py lines 371-372. -/
def qualityFactor (g : String) : ℚ :=
  if g = "A" then 1.0 else if g = "B" then 0.85 else if g = "C" then 0.7 else 0.85

/-- `(req.quality_grade or "B").upper()` — main.py line 361 (empty string is
falsy in Python). -/
def effectiveGrade (s : String) : String :=
  upperStr (if s = "" then "B" else s)

/-- Base price: main.py lines 364-367.
`base_price = unit_cost * markup if unit_cost > 0 else 1.0` followed by
`base_price = max(base_price, unit_cost * (1.0 + min_margin)) if unit_cost > 0 else base_price`. -/
def computeBasePrice (unit_cost : ℚ) (grade : String) (min_margin : ℚ) : ℚ :=
  let b := if 0 < unit_cost then unit_cost * gradeMarkup grade else 1.0
  if 0 < unit_cost then max b (unit_cost * (1.0 + min_margin)) else b

/-- `expiry_factor = 1.0 if expiry_hours > 48 else (0.7 if expiry_hours > 24 else 0.5)`
— main.py line 374 (also inlined in train_dqn.py line 45). -/
def expiryFactor (h : ℚ) : ℚ :=
  if 48 < h then 1.0 else if 24 < h then 0.7 else 0.5

/-- `waste_penalty_factor = 0.2 if expiry_hours > 48 else (0.5 if expiry_hours > 24 else 0.8)`
— main.py lines 421/434, train_dqn.py line 48. -/
def wastePenaltyFactor (h : ℚ) : ℚ :=
  if 48 < h then 0.2 else if 24 < h then 0.5 else 0.8

/-- Price floor: main.py lines 381-384.  The margin term is
`unit_cost * (1.0 + min_margin) if unit_cost > 0 else 0.0`. -/
def minAllowedPrice (base_price unit_cost min_margin max_discount : ℚ) : ℚ :=
  let min_price_discount := base_price * (1.0 - max_discount)
  let min_price_margin := if 0 < unit_cost then unit_cost * (1.0 + min_margin) else 0.0
  max (max min_price_discount min_price_margin) 0.1

/-- The relative candidate steps `[-0.10, -0.05, 0.0, 0.05, 0.10]` — main.py line 379. -/
def relSteps : List ℚ := [-0.10, -0.05, 0.0, 0.05, 0.10]

/-- Candidate generation: main.py lines 379 and 385 — the five relative steps
applied to the base price, each then clamped below to the floor. -/
def candidatesOf (base_price min_allowed : ℚ) : List ℚ :=
  (relSteps.map (fun s => base_price * (1 + s))).map (fun p => max p min_allowed)

/-- The reward formula the handler computes, written identically at
main.py lines 417-425 (model path, at the adjusted price) and lines
429-438 (exhaustive-search fallback, at each candidate). -/
def rewardOf (competitor_price base_price expected_demand inventory unit_cost expiry_hours p : ℚ) : ℚ :=
  let elasticity := 0.1 * ((competitor_price - p) / base_price)
  let demand_adj := max 0 (expected_demand * (1.0 + elasticity))
  let sold := min inventory demand_adj
  let revenue := sold * p
  let leftover := max 0 (inventory - sold)
  let waste_cost := leftover * unit_cost * wastePenaltyFactor expiry_hours
  let satisfaction_bonus := if |p - competitor_price| / base_price < 0.03 then 0.05 * revenue else 0.0
  revenue - waste_cost + satisfaction_bonus

/-- The guarded ratio feature of the DQN state vector:
`competitor_price/base_price if base_price>0 else 1.0` — serve_models.py line 71. -/
def dqnRatioFeature (competitor_price base_price : ℚ) : ℚ :=
  if 0 < base_price then competitor_price / base_price else 1.0

/-- The 5-entry DQN state vector built in serve_models.py line 71 (its value
feeds the opaque network; kept for the division-safety claim). -/
def dqnStateVector (inventory expected_demand quality_f competitor_price base_price expiry_hours : ℚ) : List ℚ :=
  [inventory, expected_demand, quality_f, dqnRatioFeature competitor_price base_price, expiry_hours]

/-- The DQN action space `[-0.10, -0.05, 0.0, 0.05, 0.10]` — serve_models.py line 76. -/
def actionSpace : List ℚ := [-0.10, -0.05, 0.0, 0.05, 0.10]

/-- Outcome of the XGB strategy in `predict_with_models`: the artifact may be
missing or fail to load (`load_xgb` returns `None` in both cases), inference
may raise (caught, falls through), or inference returns a value. -/
inductive XgbOutcome where
  | unavailable : XgbOutcome
  | predictFails : XgbOutcome
  | predicts : ℚ → XgbOutcome
deriving DecidableEq, Repr

/-- Outcome of the DQN strategy in `predict_with_models`: artifact missing or
load failure, inference failure (caught), or the argmax action index the
opaque network selects. -/
inductive DqnOutcome where
  | unavailable : DqnOutcome
  | inferFails : DqnOutcome
  | selects : Fin 5 → DqnOutcome
deriving DecidableEq, Repr

/-- The opaque learned-model state (process cache plus what the two opaque
inference calls would return). -/
structure ModelEnv where
  xgb : XgbOutcome
  dqn : DqnOutcome
deriving DecidableEq, Repr

/-- `predict_with_models` — serve_models.py lines 49-82.  Try XGB first; on
its absence/failure try the DQN policy (price `base_price * (1 + action)`);
otherwise `None`.  All exceptions are caught inside, so the result type is
`Option`: the function never propagates an error. -/
def predict_with_models (env : ModelEnv) (base_price _competitor_price _expected_demand : ℚ)
    (_quality_grade : String) (_inventory : ℚ) (_expiry_hours : ℚ) (_unit_cost : ℚ)
    (_candidates : List ℚ) : Option ℚ :=
  match env.xgb with
  | .predicts p => some p
  | _ =>
    match env.dqn with
    | .selects i => some (base_price * (1.0 + actionSpace.getD i.val 0))
    | _ => none

/-- All external inputs the handler reads for one request: the request body,
the catalog/forecast/competitor collaborator results, the environment
variables, the model cache, and the parity of the process string hash of the
product id (the only thing the A/B step uses). -/
structure Ctx where
  unit_cost : ℚ
  quality_grade : String
  current_inventory : ℤ
  time_to_expiry_hours : ℤ
  min_margin : ℚ
  max_discount : ℚ
  demand_baseline : ℚ
  competitor_price : ℚ
  modelEnv : ModelEnv
  ab_enabled : Bool
  hash_even : Bool
deriving DecidableEq, Repr

/-- The effective (defaulted, upper-cased) grade of a request. -/
def Ctx.grade (ctx : Ctx) : String := effectiveGrade ctx.quality_grade

/-- `base_price` as the handler computes it — main.py lines 361-367. -/
def basePriceOf (ctx : Ctx) : ℚ :=
  computeBasePrice ctx.unit_cost ctx.grade ctx.min_margin

/-- `expected_demand = max(0.0, demand_baseline * quality_factor * expiry_factor)`
— main.py line 375. -/
def expectedDemandOf (ctx : Ctx) : ℚ :=
  max 0 (ctx.demand_baseline * qualityFactor ctx.grade * expiryFactor (ctx.time_to_expiry_hours : ℚ))

/-- `min_allowed_price` of the request — main.py lines 381-384. -/
def minAllowedOf (ctx : Ctx) : ℚ :=
  minAllowedPrice (basePriceOf ctx) ctx.unit_cost ctx.min_margin ctx.max_discount

/-- The clamped candidate list of the request — main.py lines 379-385. -/
def candidatesListOf (ctx : Ctx) : List ℚ :=
  candidatesOf (basePriceOf ctx) (minAllowedOf ctx)

/-- The reward function the handler evaluates candidates with. -/
def rewardFnOf (ctx : Ctx) : ℚ → ℚ :=
  rewardOf ctx.competitor_price (basePriceOf ctx) (expectedDemandOf ctx)
    (ctx.current_inventory : ℚ) ctx.unit_cost (ctx.time_to_expiry_hours : ℚ)

/-- One iteration of the fallback search loop — main.py lines 429-441.
The accumulator is `(best_price, best_reward)`; `none` models the initial
`best_reward = float("-inf")`, which every real reward strictly exceeds. -/
def searchStep (f : ℚ → ℚ) (acc : ℚ × Option ℚ) (p : ℚ) : ℚ × Option ℚ :=
  match acc with
  | (_, none) => (p, some (f p))
  | (bp, some b) => if b < f p then (p, some (f p)) else (bp, some b)

/-- The whole fallback loop: `best_price = candidates[0]; best_reward = -inf;
for p in candidates: ...` — main.py lines 428-441. -/
def runSearch (f : ℚ → ℚ) (cands : List ℚ) (c0 : ℚ) : ℚ × Option ℚ :=
  cands.foldl (searchStep f) (c0, none)

/-- Python `max` over a list: raises `ValueError` on an empty list. -/
def pymax : List ℚ → Except String ℚ
  | [] => .error "ValueError: max() arg is an empty sequence"
  | x :: xs => .ok (xs.foldl max x)

/-- The competitor-adjustment step — main.py lines 407-416 (model path) and
442-451 (fallback path), identical code.  `max(candidates)` is evaluated only
inside a triggered branch, as in the source. -/
def adjustStep (competitor_price inventory expiry_hours min_allowed : ℚ)
    (candidates : List ℚ) (best_price : ℚ) : Except String (ℚ × Bool) :=
  if 0 < competitor_price then
    let ratio := best_price / competitor_price
    if 1.05 < ratio ∧ (30 < inventory ∨ expiry_hours ≤ 24) then
      match pymax candidates with
      | .error e => .error e
      | .ok mc =>
        let adjust := 0.3 * (competitor_price - best_price)
        .ok (max min_allowed (min mc (best_price + adjust)), true)
    else if ratio < 0.95 ∧ inventory < 10 then
      match pymax candidates with
      | .error e => .error e
      | .ok mc =>
        let adjust := 0.2 * (competitor_price - best_price)
        .ok (max min_allowed (min mc (best_price + adjust)), true)
    else .ok (best_price, false)
  else .ok (best_price, false)

/-- Price selection — main.py lines 387-451: model path (clamp the model
price, competitor-adjust, account its reward) or exhaustive-search fallback
(loop over candidates, then competitor-adjust; the loop's reward is kept).
Returns `(best_price, best_reward, used_model, competitor_adjusted)`. -/
def selectPrice (ctx : Ctx) : Except String (ℚ × ℚ × Bool × Bool) :=
  let base_price := basePriceOf ctx
  let min_allowed := minAllowedOf ctx
  let cands := candidatesListOf ctx
  let inventory : ℚ := (ctx.current_inventory : ℚ)
  let expiry : ℚ := (ctx.time_to_expiry_hours : ℚ)
  let f := rewardFnOf ctx
  match predict_with_models ctx.modelEnv base_price ctx.competitor_price (expectedDemandOf ctx)
      ctx.grade inventory expiry ctx.unit_cost cands with
  | some model_price =>
      let mp := max model_price min_allowed
      let max_cand := match cands with | [] => mp | c :: cs => cs.foldl max c
      let bp0 := min max_cand mp
      match adjustStep ctx.competitor_price inventory expiry min_allowed cands bp0 with
      | .error e => .error e
      | .ok (bp, ca) => .ok (bp, f bp, true, ca)
  | none =>
      match cands with
      | [] => .error "IndexError: list index out of range"
      | c0 :: _ =>
        match runSearch f cands c0 with
        | (_, none) => .error "unreachable: loop over nonempty list"
        | (bp0, some br) =>
          match adjustStep ctx.competitor_price inventory expiry min_allowed cands bp0 with
          | .error e => .error e
          | .ok (bp, ca) => .ok (bp, br, false, ca)

/-- Python `round(x, 2)` modelled over `ℚ` (round to nearest hundredth). -/
def round2 (x : ℚ) : ℚ := ((round (x * 100) : ℤ) : ℚ) / 100

/-- The response record of the endpoint — main.py lines 348-352. -/
structure PricingV1Response where
  recommended_price : ℚ
  price_adjustment_reason : String
  expected_demand : ℚ
  revenue_impact : ℚ
deriving DecidableEq, Repr

/-- The pricing-v1 endpoint body after authentication — main.py lines
355-481: select a price, apply A/B bucketing (bucket `B` iff enabled and the
product-id hash is even; bucket `B` multiplies by `0.98`), round, compute
revenue impact against the no-elasticity baseline, the output demand at the
final price, and the reason string. -/
def pricing_optimize_v1 (ctx : Ctx) : Except String PricingV1Response :=
  match selectPrice ctx with
  | .error e => .error e
  | .ok (bp0, best_reward, used_model, competitor_adjusted) =>
    let base_price := basePriceOf ctx
    let expected_demand := expectedDemandOf ctx
    let inventory : ℚ := (ctx.current_inventory : ℚ)
    let bucketB := ctx.ab_enabled && ctx.hash_even
    let best_price := if bucketB then bp0 * 0.98 else bp0
    let recommended := round2 best_price
    let base_sold := min inventory expected_demand
    let base_rev := base_sold * base_price
    let impact := round2 (best_reward - base_rev)
    let final_elasticity := 0.1 * ((ctx.competitor_price - recommended) / base_price)
    let expected_demand_out := max 0 (expected_demand * (1.0 + final_elasticity))
    let reason :=
      if competitor_adjusted then
        if used_model then "Competitor-adjusted model price" else "Competitor-adjusted heuristic price"
      else if used_model then "Model-driven price"
      else if recommended < base_price then "Expiry-driven discount"
      else "Demand/margin-driven markup"
    .ok { recommended_price := recommended
          price_adjustment_reason := reason
          expected_demand := round2 expected_demand_out
          revenue_impact := impact }

/-- The clamped price of the offline simulated step:
`price = max(base_price * (1 + action), unit_cost * 1.15, base_price * 0.70)`
— train_dqn.py line 42. -/
def offlinePrice (base_price unit_cost action : ℚ) : ℚ :=
  max (base_price * (1 + action)) (max (unit_cost * 1.15) (base_price * 0.70))

/-- The reward of `PricingEnv.step` — train_dqn.py lines 39-51.  The state is
`(inv, demand, quality, competitor_ratio, expiry_h)`; the competitor price is
`base_price * competitor_ratio`.  Note `sold = min(inv, expected * (1 + elasticity))`
has no `max(0, ...)` clamp on the adjusted demand, unlike the online formula. -/
def offlineStepReward (inv demand quality competitor expiry_h base_price unit_cost action : ℚ) : ℚ :=
  let price := offlinePrice base_price unit_cost action
  let elasticity := 0.1 * ((base_price * competitor - price) / base_price)
  let expected := max 0 (demand * quality * expiryFactor expiry_h)
  let sold := min inv (expected * (1.0 + elasticity))
  let revenue := sold * price
  let waste_cost := max 0 (inv - sold) * unit_cost * wastePenaltyFactor expiry_h
  let satisfaction_bonus := if |price - base_price * competitor| / base_price < 0.03 then 0.05 * revenue else 0.0
  revenue - waste_cost + satisfaction_bonus

/-- A concrete request context: grade-C product with unit cost 100, demand
baseline 0, no learned models, competitor at the lowest candidate price,
A/B bucketing enabled with an even product-id hash, default knobs. -/
def ctxC1 : Ctx :=
  { unit_cost := 100, quality_grade := "C", current_inventory := 0,
    time_to_expiry_hours := 72, min_margin := 0.15, max_discount := 0.30,
    demand_baseline := 0, competitor_price := 117,
    modelEnv := ⟨.unavailable, .unavailable⟩, ab_enabled := true, hash_even := true }

/-- A concrete request context whose quality grade `"D"` is not one of A/B/C. -/
def ctxC6 : Ctx :=
  { unit_cost := 1, quality_grade := "D", current_inventory := 20,
    time_to_expiry_hours := 72, min_margin := 0.15, max_discount := 0.30,
    demand_baseline := 10, competitor_price := 1.4,
    modelEnv := ⟨.unavailable, .unavailable⟩, ab_enabled := false, hash_even := false }

/- ---------------------------------------------------------------------------
Helper lemmas
--------------------------------------------------------------------------- -/

lemma gradeMarkup_C : gradeMarkup "C" = 1.3 := by
  norm_num [gradeMarkup, show ("C" : String) ≠ "A" by decide, show ("C" : String) ≠ "B" by decide]

lemma qualityFactor_C : qualityFactor "C" = 0.7 := by
  norm_num [qualityFactor, show ("C" : String) ≠ "A" by decide, show ("C" : String) ≠ "B" by decide]

lemma gradeMarkup_pos (g : String) : 0 < gradeMarkup g := by
  unfold gradeMarkup; split_ifs <;> norm_num

lemma basePrice_pos (uc mm : ℚ) (g : String) : 0 < computeBasePrice uc g mm := by
  unfold computeBasePrice
  split_ifs with h
  · exact lt_of_lt_of_le (mul_pos h (gradeMarkup_pos g)) (le_max_left _ _)
  · norm_num

/-- With a nonnegative unit cost the floor equals the three-way maximum the
spec describes. -/
lemma minAllowed_of_nonneg {uc : ℚ} (b mm md : ℚ) (h : 0 ≤ uc) :
    minAllowedPrice b uc mm md = max (max (b * (1.0 - md)) (uc * (1.0 + mm))) 0.1 := by
  unfold minAllowedPrice
  rcases h.eq_or_lt with h0 | hpos
  · rw [if_neg (by rw [← h0]; exact lt_irrefl 0), ← h0]
    norm_num
  · rw [if_pos hpos]

lemma minAllowed_ge_tenth (b uc mm md : ℚ) : 0.1 ≤ minAllowedPrice b uc mm md := by
  unfold minAllowedPrice; exact le_max_right _ _

lemma cand_ge_floor {b m p : ℚ} (hp : p ∈ candidatesOf b m) : m ≤ p := by
  simp only [candidatesOf, List.mem_map] at hp
  obtain ⟨q, _, rfl⟩ := hp
  exact le_max_right _ _

/-- The candidate list written out: five entries in the fixed step order. -/
lemma candidatesOf_eq (b m : ℚ) :
    candidatesOf b m =
      [max (b * (1 + -0.10)) m, max (b * (1 + -0.05)) m, max (b * (1 + 0.0)) m,
       max (b * (1 + 0.05)) m, max (b * (1 + 0.10)) m] := rfl

lemma le_foldl_max : ∀ (l : List ℚ) (a : ℚ), a ≤ l.foldl max a
  | [], _ => le_refl _
  | x :: t, a => le_trans (le_max_left a x) (le_foldl_max t (max a x))

/-- `round(x, 2)` loses at most half a cent downward. -/
lemma round2_ge (x : ℚ) : x - 1 / 200 ≤ round2 x := by
  have h := abs_sub_round (x * 100)
  rw [abs_le] at h
  have h1 : x * 100 - 1 / 2 ≤ ((round (x * 100) : ℤ) : ℚ) := by linarith [h.1, h.2]
  unfold round2
  linarith

/-- The adjustment step never lowers the price below the floor it is handed. -/
lemma adjust_ok_ge {comp inv expiry minA p p' : ℚ} {cands : List ℚ} {fl : Bool}
    (hp : minA ≤ p) (h : adjustStep comp inv expiry minA cands p = .ok (p', fl)) : minA ≤ p' := by
  simp only [adjustStep] at h
  cases hm : pymax cands with
  | error e =>
      simp only [hm] at h
      split_ifs at h <;>
        (simp only [Except.ok.injEq, Prod.mk.injEq] at h; rw [← h.1]; exact hp)
  | ok mc =>
      simp only [hm] at h
      split_ifs at h <;>
        (simp only [Except.ok.injEq, Prod.mk.injEq] at h; rw [← h.1]
         first
         | exact le_max_left _ _
         | exact hp)

/-- The adjustment step succeeds whenever the candidate list is nonempty. -/
lemma adjust_ok {comp inv expiry minA p : ℚ} {c : ℚ} {cs : List ℚ} :
    ∃ out, adjustStep comp inv expiry minA (c :: cs) p = .ok out := by
  simp only [adjustStep, pymax]
  split_ifs <;> exact ⟨_, rfl⟩

lemma runSearch_cons (f : ℚ → ℚ) (c : ℚ) (l : List ℚ) (c0 : ℚ) :
    runSearch f (c :: l) c0 = l.foldl (searchStep f) (c, some (f c)) := rfl

lemma foldl_search_snd_some (f : ℚ → ℚ) :
    ∀ (l : List ℚ) (bp b : ℚ), ∃ q r, l.foldl (searchStep f) (bp, some b) = (q, some r) := by
  intro l
  induction l with
  | nil => exact fun bp b => ⟨bp, b, rfl⟩
  | cons p t ih =>
      intro bp b
      by_cases h : b < f p
      · simpa [searchStep, h] using ih p (f p)
      · simpa [searchStep, h] using ih bp b

/-- The fallback loop agrees with `List.argmax` run from the same seed:
a later candidate replaces the running best only on a strictly greater
reward. -/
lemma foldl_search_eq_argAux (f : ℚ → ℚ) :
    ∀ (l : List ℚ) (bp : ℚ),
      ∃ m, l.foldl (List.argAux fun b c => f c < f b) (some bp) = some m ∧
        l.foldl (searchStep f) (bp, some (f bp)) = (m, some (f m)) := by
  intro l
  induction l with
  | nil => exact fun bp => ⟨bp, rfl, rfl⟩
  | cons p t ih =>
      intro bp
      by_cases h : f bp < f p
      · have e1 : searchStep f (bp, some (f bp)) p = (p, some (f p)) := by
          simp [searchStep, h]
        have e2 : List.argAux (fun b c => f c < f b) (some bp) p = some p := by
          simp [List.argAux, h]
        obtain ⟨m, h1, h2⟩ := ih p
        exact ⟨m, by rw [List.foldl_cons, e2, h1], by rw [List.foldl_cons, e1, h2]⟩
      · have e1 : searchStep f (bp, some (f bp)) p = (bp, some (f bp)) := by
          simp [searchStep, h]
        have e2 : List.argAux (fun b c => f c < f b) (some bp) p = some bp := by
          simp [List.argAux, h]
        obtain ⟨m, h1, h2⟩ := ih bp
        exact ⟨m, by rw [List.foldl_cons, e2, h1], by rw [List.foldl_cons, e1, h2]⟩

lemma argmax_cons_eq_foldl (f : ℚ → ℚ) (c : ℚ) (l : List ℚ) :
    List.argmax f (c :: l) = l.foldl (List.argAux fun b c => f c < f b) (some c) := rfl

/-- The price selected by the fallback loop over a nonempty candidate list is
exactly the `List.argmax` of the reward function (first maximiser wins). -/
lemma runSearch_fst_mem_argmax (f : ℚ → ℚ) (c0 : ℚ) (rest : List ℚ) :
    (runSearch f (c0 :: rest) c0).1 ∈ List.argmax f (c0 :: rest) := by
  obtain ⟨m, h1, h2⟩ := foldl_search_eq_argAux f rest c0
  rw [runSearch_cons, h2, argmax_cons_eq_foldl, h1]
  rfl

/-- The request-level candidate list written out. -/
lemma candidatesListOf_eq (ctx : Ctx) :
    candidatesListOf ctx =
      [max (basePriceOf ctx * (1 + -0.10)) (minAllowedOf ctx),
       max (basePriceOf ctx * (1 + -0.05)) (minAllowedOf ctx),
       max (basePriceOf ctx * (1 + 0.0)) (minAllowedOf ctx),
       max (basePriceOf ctx * (1 + 0.05)) (minAllowedOf ctx),
       max (basePriceOf ctx * (1 + 0.10)) (minAllowedOf ctx)] := rfl

lemma adjust_not_error {comp inv expiry minA p : ℚ} {c : ℚ} {cs : List ℚ} {e : String} :
    adjustStep comp inv expiry minA (c :: cs) p ≠ .error e := by
  simp only [adjustStep, pymax]
  split_ifs <;> intro h <;> exact Except.noConfusion h

lemma selectPrice_isOk (ctx : Ctx) : ∃ out, selectPrice ctx = .ok out := by
  simp only [selectPrice]
  split
  · rw [candidatesListOf_eq]
    split
    · exact absurd (by assumption) adjust_not_error
    · exact ⟨_, rfl⟩
  · rw [candidatesListOf_eq]
    dsimp only
    rw [runSearch_cons]
    obtain ⟨q, r, h2⟩ := foldl_search_snd_some (rewardFnOf ctx) _ _ _
    rw [h2]
    dsimp only
    split
    · exact absurd (by assumption) adjust_not_error
    · exact ⟨_, rfl⟩

/-- Whatever path selected the price, the pre-A/B price respects the floor. -/
lemma selectPrice_floor {ctx : Ctx} {bp br : ℚ} {um ca : Bool}
    (h : selectPrice ctx = .ok (bp, br, um, ca)) : minAllowedOf ctx ≤ bp := by
  simp only [selectPrice] at h
  split at h
  · -- model path
    rw [candidatesListOf_eq] at h
    dsimp only at h
    split at h
    · exact Except.noConfusion h
    · rename_i a b heq
      simp only [Except.ok.injEq, Prod.mk.injEq] at h
      rw [← h.1]
      exact adjust_ok_ge
        (le_min (le_trans (le_max_right _ _) (le_foldl_max _ _)) (le_max_right _ _)) heq
  · -- fallback path
    rw [candidatesListOf_eq] at h
    dsimp only at h
    rw [runSearch_cons] at h
    obtain ⟨q, r, h2⟩ := foldl_search_snd_some (rewardFnOf ctx)
      [basePriceOf ctx * (1 + -0.05) ⊔ minAllowedOf ctx,
       basePriceOf ctx * (1 + 0.0) ⊔ minAllowedOf ctx,
       basePriceOf ctx * (1 + 0.05) ⊔ minAllowedOf ctx,
       basePriceOf ctx * (1 + 0.10) ⊔ minAllowedOf ctx]
      (basePriceOf ctx * (1 + -0.10) ⊔ minAllowedOf ctx)
      (rewardFnOf ctx (basePriceOf ctx * (1 + -0.10) ⊔ minAllowedOf ctx))
    rw [h2] at h
    dsimp only at h
    split at h
    · exact Except.noConfusion h
    · rename_i a b heq
      simp only [Except.ok.injEq, Prod.mk.injEq] at h
      rw [← h.1]
      have hqmem : q ∈ List.argmax (rewardFnOf ctx)
          (basePriceOf ctx * (1 + -0.10) ⊔ minAllowedOf ctx ::
            [basePriceOf ctx * (1 + -0.05) ⊔ minAllowedOf ctx,
             basePriceOf ctx * (1 + 0.0) ⊔ minAllowedOf ctx,
             basePriceOf ctx * (1 + 0.05) ⊔ minAllowedOf ctx,
             basePriceOf ctx * (1 + 0.10) ⊔ minAllowedOf ctx]) := by
        have hm := runSearch_fst_mem_argmax (rewardFnOf ctx)
          (basePriceOf ctx * (1 + -0.10) ⊔ minAllowedOf ctx)
          [basePriceOf ctx * (1 + -0.05) ⊔ minAllowedOf ctx,
           basePriceOf ctx * (1 + 0.0) ⊔ minAllowedOf ctx,
           basePriceOf ctx * (1 + 0.05) ⊔ minAllowedOf ctx,
           basePriceOf ctx * (1 + 0.10) ⊔ minAllowedOf ctx]
        rw [runSearch_cons, h2] at hm
        exact hm
      have hq2 : q ∈ candidatesOf (basePriceOf ctx) (minAllowedOf ctx) := by
        have := List.argmax_mem hqmem
        rw [show candidatesOf (basePriceOf ctx) (minAllowedOf ctx) = candidatesListOf ctx from rfl,
          candidatesListOf_eq]
        exact this
      exact adjust_ok_ge (cand_ge_floor hq2) heq

/- ---------------------------------------------------------------------------
Concrete evaluations on ctxC1 and ctxC6
--------------------------------------------------------------------------- -/

lemma grade_ctxC1 : Ctx.grade ctxC1 = "C" := by decide

lemma basePrice_ctxC1 : basePriceOf ctxC1 = 130 := by
  simp only [basePriceOf, grade_ctxC1]
  norm_num [computeBasePrice, gradeMarkup_C, ctxC1]

lemma minAllowed_ctxC1 : minAllowedOf ctxC1 = 115 := by
  simp only [minAllowedOf, basePrice_ctxC1]
  norm_num [minAllowedPrice, ctxC1]

lemma cands_ctxC1 : candidatesListOf ctxC1 = [117, 123.5, 130, 136.5, 143] := by
  simp only [candidatesListOf, basePrice_ctxC1, minAllowed_ctxC1]
  norm_num [candidatesOf, relSteps]

lemma expectedDemand_ctxC1 : expectedDemandOf ctxC1 = 0 := by
  simp only [expectedDemandOf, grade_ctxC1, qualityFactor_C]
  norm_num [ctxC1, expiryFactor]

lemma rewardFn_ctxC1 : ∀ p, rewardFnOf ctxC1 p = 0 := by
  intro p
  simp only [rewardFnOf, basePrice_ctxC1, expectedDemand_ctxC1]
  norm_num [rewardOf, wastePenaltyFactor, ctxC1]

lemma selectPrice_ctxC1 : selectPrice ctxC1 = .ok (117, 0, false, false) := by
  simp only [selectPrice, basePrice_ctxC1, minAllowed_ctxC1, cands_ctxC1, expectedDemand_ctxC1,
    show ctxC1.modelEnv = ⟨.unavailable, .unavailable⟩ from rfl,
    show ctxC1.competitor_price = 117 from rfl,
    show ctxC1.unit_cost = 100 from rfl,
    show ((ctxC1.current_inventory : ℚ)) = 0 from by norm_num [ctxC1],
    show ((ctxC1.time_to_expiry_hours : ℚ)) = 72 from by norm_num [ctxC1]]
  norm_num [predict_with_models, runSearch, searchStep, adjustStep, pymax, rewardFn_ctxC1,
    List.foldl]

lemma pricing_ctxC1 : pricing_optimize_v1 ctxC1 =
    .ok { recommended_price := 114.66, price_adjustment_reason := "Expiry-driven discount",
          expected_demand := 0, revenue_impact := 0 } := by
  simp only [pricing_optimize_v1, selectPrice_ctxC1, basePrice_ctxC1, expectedDemand_ctxC1]
  norm_num [ctxC1, round2, round_eq]

lemma grade_ctxC6 : Ctx.grade ctxC6 = "D" := by decide

lemma basePrice_ctxC6 : basePriceOf ctxC6 = 1.5 := by
  simp only [basePriceOf, grade_ctxC6]
  norm_num [computeBasePrice, gradeMarkup, ctxC6,
    show ("D" : String) ≠ "A" by decide, show ("D" : String) ≠ "B" by decide,
    show ("D" : String) ≠ "C" by decide]

/- ---------------------------------------------------------------------------
Claim theorems
--------------------------------------------------------------------------- -/

/-- C2: for every candidate price and context, the reward both reward sites of
the handler compute equals `revenue - wasteCost + satisfactionBonus` with
`elasticity = 0.1*(competitorPrice-price)/basePrice`,
`demandAdjusted = max 0 (expectedDemand*(1+elasticity))`,
`sold = min inventory demandAdjusted`, `revenue = sold*price`,
waste penalty 0.2/0.5/0.8 by expiry, `wasteCost = max 0 (inventory-sold) * unitCost * penalty`,
and a 5% satisfaction bonus when the price sits within 3% of the competitor. -/
theorem claim_c2_reward_formula :
    ∀ (competitorPrice basePrice expectedDemand inventory unitCost expiryHours price : ℚ),
      rewardOf competitorPrice basePrice expectedDemand inventory unitCost expiryHours price =
        min inventory (max 0 (expectedDemand * (1 + 0.1 * (competitorPrice - price) / basePrice))) * price
        - max 0 (inventory -
            min inventory (max 0 (expectedDemand * (1 + 0.1 * (competitorPrice - price) / basePrice)))) * unitCost
          * (if 48 < expiryHours then 0.2 else if 24 < expiryHours then 0.5 else 0.8)
        + (if |price - competitorPrice| / basePrice < 0.03
            then 0.05 * (min inventory
              (max 0 (expectedDemand * (1 + 0.1 * (competitorPrice - price) / basePrice))) * price)
            else 0) := by
  intro c b e i u h p
  simp only [rewardOf, wastePenaltyFactor, mul_div_assoc]
  norm_num

/-- C3 (counterexample): the claimed offline/online reward identity fails:
at state `(inv, demand, quality, ratio, expiry) = (10, 5, 1, 1, 72)` with
`basePrice = 1`, `unitCost = 100`, action `0` (hence offline price 115), the
offline step reward is `-7220` while the online formula gives `-200`, because
the offline step omits the `max(0, ·)` clamp on the elasticity-adjusted
demand. -/
theorem claim_c3_counterexample :
    offlineStepReward 10 5 1 1 72 1 100 0 ≠
      rewardOf (1 * 1) 1 (max 0 (5 * 1 * expiryFactor 72)) 10 100 72 (offlinePrice 1 100 0) := by
  norm_num [offlineStepReward, rewardOf, offlinePrice, expiryFactor, wastePenaltyFactor,
    abs_eq_max_neg]

/-- C3 (amended): the offline `PricingEnv.step` reward equals the online
reward formula on corresponding inputs (competitorPrice = basePrice*ratio,
expectedDemand = max 0 (demand*quality*expiryFactor), price = the offline
clamped price) whenever the elasticity-adjusted demand is nonnegative; the
two differ only through the missing `max(0, ·)` clamp offline. -/
theorem claim_c3_reward_parity :
    ∀ (inv demand quality competitorRatio expiry basePrice unitCost action : ℚ),
      0 ≤ max 0 (demand * quality * expiryFactor expiry) *
          (1.0 + 0.1 * ((basePrice * competitorRatio - offlinePrice basePrice unitCost action) / basePrice)) →
      offlineStepReward inv demand quality competitorRatio expiry basePrice unitCost action =
        rewardOf (basePrice * competitorRatio) basePrice
          (max 0 (demand * quality * expiryFactor expiry)) inv unitCost expiry
          (offlinePrice basePrice unitCost action) := by
  intro inv demand quality ratio expiry base uc action hnn
  simp only [offlineStepReward, rewardOf]
  rw [max_eq_right hnn]

/-- C3 (witness): at a state with mild elasticity the offline and online
rewards agree. -/
theorem claim_c3_reward_parity_witness :
    offlineStepReward 10 5 1 1 72 1 1 0 =
      rewardOf (1 * 1) 1 (max 0 (5 * 1 * expiryFactor 72)) 10 1 72 (offlinePrice 1 1 0) :=
  claim_c3_reward_parity 10 5 1 1 72 1 1 0 (by norm_num [expiryFactor, offlinePrice])

/-- C5: with a nonnegative unit cost (the data model guarantees
`unitCost ≥ 0`), the candidate list is exactly the five relative steps
(-10%, -5%, 0%, +5%, +10%) applied to the base price in that order, each clamped
below to `max(basePrice*(1-maxDiscount), unitCost*(1+minMargin), 0.1)`;
no candidate falls below that floor and duplicates are not removed. -/
theorem claim_c5_candidates :
    ∀ (basePrice unitCost minMargin maxDiscount : ℚ),
      0 ≤ unitCost →
      candidatesOf basePrice (minAllowedPrice basePrice unitCost minMargin maxDiscount) =
        relSteps.map (fun s => max (basePrice * (1 + s))
          (max (max (basePrice * (1 - maxDiscount)) (unitCost * (1 + minMargin))) 0.1)) ∧
      (candidatesOf basePrice (minAllowedPrice basePrice unitCost minMargin maxDiscount)).length = 5 ∧
      relSteps = [-0.10, -0.05, 0.0, 0.05, 0.10] ∧
      ∀ p ∈ candidatesOf basePrice (minAllowedPrice basePrice unitCost minMargin maxDiscount),
        max (max (basePrice * (1 - maxDiscount)) (unitCost * (1 + minMargin))) 0.1 ≤ p := by
  intro b uc mm md huc
  have hm : minAllowedPrice b uc mm md = max (max (b * (1 - md)) (uc * (1 + mm))) 0.1 := by
    rw [minAllowed_of_nonneg b mm md huc]
    norm_num
  refine ⟨?_, ?_, rfl, ?_⟩
  · rw [hm]
    simp [candidatesOf, relSteps]
  · simp [candidatesOf, relSteps]
  · intro p hp
    rw [← hm]
    exact cand_ge_floor hp

/-- C5 (witness): the concrete scenario basePrice 4, unitCost 2 yields a
5-element candidate list. -/
theorem claim_c5_candidates_witness :
    (candidatesOf 4 (minAllowedPrice 4 2 0.15 0.30)).length = 5 :=
  (claim_c5_candidates 4 2 0.15 0.30 (by norm_num)).2.1

/-- C6 (counterexample): for the unknown grade "D" the handler computes base
price `unitCost * 1.5` (the dictionary default markup is 1.5), not the
B-grade markup 1.6 the claim asserts. -/
theorem claim_c6_counterexample :
    basePriceOf ctxC6 = 1.5 ∧
    computeBasePrice ctxC6.unit_cost "B" ctxC6.min_margin = 1.6 ∧
    basePriceOf ctxC6 ≠ computeBasePrice ctxC6.unit_cost "B" ctxC6.min_margin := by
  have hB : computeBasePrice ctxC6.unit_cost "B" ctxC6.min_margin = 1.6 := by
    norm_num [computeBasePrice, gradeMarkup, ctxC6, show ("B" : String) ≠ "A" by decide]
  refine ⟨basePrice_ctxC6, hB, ?_⟩
  rw [basePrice_ctxC6, hB]
  norm_num

/-- C6 (amended): for a request whose effective (upper-cased) grade is not
A, B or C, the handler uses markup 1.5 (the dict default) when computing the
base price, and the B-equivalent demand-quality multiplier 0.85 when
computing the expected demand. -/
theorem claim_c6_unknown_grade :
    ∀ (ctx : Ctx),
      Ctx.grade ctx ≠ "A" → Ctx.grade ctx ≠ "B" → Ctx.grade ctx ≠ "C" →
      gradeMarkup (Ctx.grade ctx) = 1.5 ∧ qualityFactor (Ctx.grade ctx) = 0.85 ∧
      basePriceOf ctx =
        (if 0 < ctx.unit_cost
          then max (ctx.unit_cost * 1.5) (ctx.unit_cost * (1.0 + ctx.min_margin)) else 1.0) ∧
      expectedDemandOf ctx =
        max 0 (ctx.demand_baseline * 0.85 * expiryFactor (ctx.time_to_expiry_hours : ℚ)) := by
  intro ctx h1 h2 h3
  have hmk : gradeMarkup (Ctx.grade ctx) = 1.5 := by simp [gradeMarkup, h1, h2, h3]
  have hqf : qualityFactor (Ctx.grade ctx) = 0.85 := by simp [qualityFactor, h1, h2, h3]
  refine ⟨hmk, hqf, ?_, ?_⟩
  · simp only [basePriceOf, computeBasePrice, hmk]
    split_ifs <;> rfl
  · simp only [expectedDemandOf, hqf]

/-- C6 (witness): instantiated at the grade-"D" context. -/
theorem claim_c6_unknown_grade_witness :
    gradeMarkup (Ctx.grade ctxC6) = 1.5 ∧ qualityFactor (Ctx.grade ctxC6) = 0.85 :=
  ⟨(claim_c6_unknown_grade ctxC6 (by decide) (by decide) (by decide)).1,
   (claim_c6_unknown_grade ctxC6 (by decide) (by decide) (by decide)).2.1⟩

/-- C7: the competitor-adjustment step nudges by 0.3 toward the competitor
and re-clamps into `[minAllowed, max(candidates)]` when the price exceeds the
competitor by more than 5% under inventory pressure or expiry urgency; nudges
by 0.2 when more than 5% below with scarce stock; and otherwise (including a
non-positive competitor price) leaves the price unchanged and unmarked. -/
theorem claim_c7_competitor_adjustment :
    ∀ (comp inv expiry minA c p : ℚ) (cs : List ℚ),
      (0 < comp → 1.05 < p / comp → (30 < inv ∨ expiry ≤ 24) →
        adjustStep comp inv expiry minA (c :: cs) p =
          .ok (max minA (min (cs.foldl max c) (p + 0.3 * (comp - p))), true)) ∧
      (0 < comp → p / comp < 0.95 → inv < 10 →
        adjustStep comp inv expiry minA (c :: cs) p =
          .ok (max minA (min (cs.foldl max c) (p + 0.2 * (comp - p))), true)) ∧
      (comp ≤ 0 → adjustStep comp inv expiry minA (c :: cs) p = .ok (p, false)) ∧
      (¬(1.05 < p / comp ∧ (30 < inv ∨ expiry ≤ 24)) → ¬(p / comp < 0.95 ∧ inv < 10) →
        adjustStep comp inv expiry minA (c :: cs) p = .ok (p, false)) := by
  intro comp inv expiry minA c p cs
  refine ⟨?_, ?_, ?_, ?_⟩
  · intro hc h1 h2
    simp only [adjustStep, pymax]
    rw [if_pos hc, if_pos ⟨h1, h2⟩]
  · intro hc h1 h2
    simp only [adjustStep, pymax]
    rw [if_pos hc, if_neg (by rintro ⟨hgt, -⟩; linarith), if_pos ⟨h1, h2⟩]
  · intro hc
    simp only [adjustStep, pymax]
    rw [if_neg (not_lt.mpr hc)]
  · intro h1 h2
    rcases le_or_lt comp 0 with hc | hc
    · simp only [adjustStep, pymax]
      rw [if_neg (not_lt.mpr hc)]
    · simp only [adjustStep, pymax]
      rw [if_pos hc, if_neg h1, if_neg h2]

/-- C7 (witness): a price 20% above the competitor with inventory 40 is
nudged down to the candidate ceiling 11 and marked adjusted. -/
theorem claim_c7_competitor_adjustment_witness :
    adjustStep 10 40 30 1 [11] 12 = .ok (11, true) := by
  rw [(claim_c7_competitor_adjustment 10 40 30 1 11 12 []).1 (by norm_num) (by norm_num)
    (Or.inl (by norm_num))]
  norm_num

/-- C9: the v1 pricing computation is deterministic — it is a pure function
of the request, the collaborator results, the environment knobs, the model
cache outcome and the process hash parity, all captured in `Ctx`; two calls
on equal contexts return equal responses. -/
theorem claim_c9_deterministic :
    ∀ (ctx1 ctx2 : Ctx), ctx1 = ctx2 →
      pricing_optimize_v1 ctx1 = pricing_optimize_v1 ctx2 := by
  intro c1 c2 h
  rw [h]

/-- C9 (witness): two runs on the same concrete context agree. -/
theorem claim_c9_deterministic_witness :
    pricing_optimize_v1 ctxC6 = pricing_optimize_v1 ctxC6 :=
  claim_c9_deterministic ctxC6 ctxC6 rfl

/-- C10: the base price is strictly positive for every request — it is
`max(unitCost*gradeMarkup, unitCost*(1+minMargin))` when `unitCost > 0` and
the constant `1.0` otherwise — so the divisions by `basePrice` in the
elasticity/satisfaction formulas are well-defined and the guarded DQN ratio
feature equals `competitorPrice / basePrice`. -/
theorem claim_c10_base_price_positive :
    ∀ (unitCost minMargin competitorPrice : ℚ) (grade : String),
      0 < computeBasePrice unitCost grade minMargin ∧
      (0 < unitCost → computeBasePrice unitCost grade minMargin =
        max (unitCost * gradeMarkup grade) (unitCost * (1.0 + minMargin))) ∧
      (unitCost ≤ 0 → computeBasePrice unitCost grade minMargin = 1.0) ∧
      dqnRatioFeature competitorPrice (computeBasePrice unitCost grade minMargin) =
        competitorPrice / computeBasePrice unitCost grade minMargin := by
  intro uc mm comp g
  refine ⟨basePrice_pos uc mm g, ?_, ?_, ?_⟩
  · intro h
    simp only [computeBasePrice, if_pos h]
  · intro h
    simp only [computeBasePrice, if_neg (not_lt.mpr h)]
  · simp only [dqnRatioFeature, if_pos (basePrice_pos uc mm g)]

/-- C10 (witness): instantiated at unit cost 2, grade "A". -/
theorem claim_c10_base_price_positive_witness :
    0 < computeBasePrice 2 "A" 0.15 ∧
    computeBasePrice 2 "A" 0.15 = max (2 * gradeMarkup "A") (2 * (1.0 + 0.15)) ∧
    dqnRatioFeature 4 (computeBasePrice 2 "A" 0.15) = 4 / computeBasePrice 2 "A" 0.15 :=
  ⟨(claim_c10_base_price_positive 2 0.15 4 "A").1,
   (claim_c10_base_price_positive 2 0.15 4 "A").2.1 (by norm_num),
   (claim_c10_base_price_positive 2 0.15 4 "A").2.2.2⟩

/-- C4: over any (nonempty) candidate list the fallback search loop selects a
member of the list achieving the maximal reward, and on ties the candidate
generated earliest wins: a later candidate replaces the running best only on
a strictly greater reward, so the selected price has the least index among
maximisers. -/
theorem claim_c4_first_argmax :
    ∀ (ctx : Ctx) (c0 : ℚ) (rest : List ℚ), candidatesListOf ctx = c0 :: rest →
      ((runSearch (rewardFnOf ctx) (candidatesListOf ctx) c0).1 ∈ candidatesListOf ctx) ∧
      (∀ q ∈ candidatesListOf ctx,
        rewardFnOf ctx q ≤ rewardFnOf ctx (runSearch (rewardFnOf ctx) (candidatesListOf ctx) c0).1) ∧
      (∀ q ∈ candidatesListOf ctx,
        rewardFnOf ctx (runSearch (rewardFnOf ctx) (candidatesListOf ctx) c0).1 ≤ rewardFnOf ctx q →
          (candidatesListOf ctx).indexOf (runSearch (rewardFnOf ctx) (candidatesListOf ctx) c0).1 ≤
            (candidatesListOf ctx).indexOf q) := by
  intro ctx c0 rest h
  rw [h]
  have hmem := runSearch_fst_mem_argmax (rewardFnOf ctx) c0 rest
  exact ⟨List.argmax_mem hmem, fun q hq => List.le_of_mem_argmax hq hmem,
    fun q hq hle => List.index_of_argmax hmem hq hle⟩

/-- C4 (witness): on the concrete grade-C context the selected fallback price
is one of the five candidates. -/
theorem claim_c4_first_argmax_witness :
    (runSearch (rewardFnOf ctxC1) (candidatesListOf ctxC1) 117).1 ∈ candidatesListOf ctxC1 :=
  (claim_c4_first_argmax ctxC1 117 [123.5, 130, 136.5, 143] cands_ctxC1).1

/-- C8: model unavailability is non-fatal. `predict_with_models` returns
`none` under every combination of missing artifact, load failure and
inference failure (it never raises — its result type is `Option`); with both
models failing, `selectPrice` still succeeds through the exhaustive reward
search (`used_model = false`); and the endpoint returns a decision for every
context — it never propagates an error. -/
theorem claim_c8_nonfatal_fallback :
    (∀ (b c e : ℚ) (g : String) (i h u : ℚ) (cands : List ℚ),
      predict_with_models ⟨.unavailable, .unavailable⟩ b c e g i h u cands = none) ∧
    (∀ (b c e : ℚ) (g : String) (i h u : ℚ) (cands : List ℚ),
      predict_with_models ⟨.unavailable, .inferFails⟩ b c e g i h u cands = none) ∧
    (∀ (b c e : ℚ) (g : String) (i h u : ℚ) (cands : List ℚ),
      predict_with_models ⟨.predictFails, .unavailable⟩ b c e g i h u cands = none) ∧
    (∀ (b c e : ℚ) (g : String) (i h u : ℚ) (cands : List ℚ),
      predict_with_models ⟨.predictFails, .inferFails⟩ b c e g i h u cands = none) ∧
    (∀ ctx : Ctx, ∃ bp br ca,
      selectPrice { ctx with modelEnv := ⟨.unavailable, .unavailable⟩ } = .ok (bp, br, false, ca)) ∧
    (∀ ctx : Ctx, ∃ r, pricing_optimize_v1 ctx = .ok r) := by
  refine ⟨fun _ _ _ _ _ _ _ _ => rfl, fun _ _ _ _ _ _ _ _ => rfl,
    fun _ _ _ _ _ _ _ _ => rfl, fun _ _ _ _ _ _ _ _ => rfl, ?_, ?_⟩
  · intro ctx
    simp only [selectPrice, predict_with_models]
    rw [candidatesListOf_eq]
    dsimp only
    rw [runSearch_cons]
    obtain ⟨q, r, h2⟩ :=
      foldl_search_snd_some (rewardFnOf { ctx with modelEnv := ⟨.unavailable, .unavailable⟩ }) _ _ _
    rw [h2]
    dsimp only
    split
    · exact absurd (by assumption) adjust_not_error
    · exact ⟨_, _, _, rfl⟩
  · intro ctx
    obtain ⟨⟨bp0, br, um, ca⟩, hout⟩ := selectPrice_isOk ctx
    simp only [pricing_optimize_v1, hout]
    exact ⟨_, rfl⟩

/-- C1 (counterexample): the floor invariant fails on the final returned
value: for the grade-C context with unit cost 100 the floor is
`max(130*0.7, 100*1.15, 0.1) = 115`, but with an even product-id hash the
A/B step multiplies the selected floor-respecting price 117 by 0.98, and the
endpoint returns 114.66 < 115. -/
theorem claim_c1_counterexample :
    pricing_optimize_v1 ctxC1 =
      .ok { recommended_price := 114.66, price_adjustment_reason := "Expiry-driven discount",
            expected_demand := 0, revenue_impact := 0 } ∧
    (114.66 : ℚ) < max (max (basePriceOf ctxC1 * (1 - ctxC1.max_discount))
      (ctxC1.unit_cost * (1 + ctxC1.min_margin))) 0.1 := by
  refine ⟨pricing_ctxC1, ?_⟩
  rw [basePrice_ctxC1]
  norm_num [ctxC1]

/-- C1 (amended): the floor `minAllowedPrice` holds for the selected price
after competitor adjustment but before A/B bucketing and rounding; the final
returned value is therefore at least `0.98 * floor - 0.005` (the B-bucket
multiplier and the rounding step may push it below the floor itself). -/
theorem claim_c1_floor :
    ∀ (ctx : Ctx) (bp br : ℚ) (um ca : Bool),
      selectPrice ctx = .ok (bp, br, um, ca) →
      minAllowedOf ctx ≤ bp ∧
      ∀ (r : PricingV1Response), pricing_optimize_v1 ctx = .ok r →
        0.98 * minAllowedOf ctx - 1 / 200 ≤ r.recommended_price := by
  intro ctx bp br um ca h
  have hbp := selectPrice_floor h
  refine ⟨hbp, ?_⟩
  intro r hr
  simp only [pricing_optimize_v1, h] at hr
  simp only [Except.ok.injEq] at hr
  have hminA : (0 : ℚ) ≤ minAllowedOf ctx :=
    le_trans (by norm_num) (minAllowed_ge_tenth (basePriceOf ctx) ctx.unit_cost ctx.min_margin ctx.max_discount)
  have hx : 0.98 * minAllowedOf ctx ≤
      (if (ctx.ab_enabled && ctx.hash_even) = true then bp * 0.98 else bp) := by
    split_ifs
    · calc 0.98 * minAllowedOf ctx = minAllowedOf ctx * 0.98 := by ring
        _ ≤ bp * 0.98 := by
            exact mul_le_mul_of_nonneg_right hbp (by norm_num)
    · linarith
  have hr2 : r.recommended_price =
      round2 (if (ctx.ab_enabled && ctx.hash_even) = true then bp * 0.98 else bp) := by
    rw [← hr]
  calc 0.98 * minAllowedOf ctx - 1 / 200
      ≤ (if (ctx.ab_enabled && ctx.hash_even) = true then bp * 0.98 else bp) - 1 / 200 := by linarith
    _ ≤ round2 (if (ctx.ab_enabled && ctx.hash_even) = true then bp * 0.98 else bp) := round2_ge _
    _ = r.recommended_price := hr2.symm

/-- C1 (witness): the amended floor bound instantiated at the concrete
grade-C context. -/
theorem claim_c1_floor_witness :
    minAllowedOf ctxC1 ≤ 117 ∧
    0.98 * minAllowedOf ctxC1 - 1 / 200 ≤
      (PricingV1Response.mk 114.66 "Expiry-driven discount" 0 0).recommended_price :=
  ⟨(claim_c1_floor ctxC1 117 0 false false selectPrice_ctxC1).1,
   (claim_c1_floor ctxC1 117 0 false false selectPrice_ctxC1).2 _ pricing_ctxC1⟩

end AgroPricing
